import Mathlib

/-!
Verification of the experiment-runner OCR energy experiment against its
natural-language specification.

The development shallowly embeds the parts of the repository the claims
refer to:

* the run-table generation declared by `create_run_table_model` in
  `RunnerConfig_EnergiBridge.py` and `RunnerConfig_PowerJoular.py`
  (the generator itself, `RunTableModel`, is framework code of the
  repository that is not under `src/`; it is modelled from the spec);
* the per-run lifecycle hooks of `RunnerConfig_PowerJoular.py`
  (`start_run`, `start_measurement`, `interact`, `stop_measurement`,
  `stop_run`) driven in the externally fixed event order;
* metric extraction (`populate_run_data`) of both configs;
* sample selection and the OCR loops of `run_paddle.py` and
  `run_tesseract.py`.

Machine values (power, utilization, memory, joules) are modelled as
rationals; timestamps as rationals; process ids as naturals.
-/

/-- A factor level as it appears in the configs: either a string level
(e.g. `"paddle"`, `"eng"`) or an integer level (e.g. sample sizes 1, 20). -/
inductive Level where
  | s (v : String)
  | i (v : Int)
deriving DecidableEq

/-- `FactorModel(name, levels)` from the configs: a named factor with its
ordered list of levels. -/
structure FactorModel where
  name : String
  levels : List Level
deriving DecidableEq

/-- One fully assigned run configuration: factor name paired with the chosen
level, in factor-declaration order. -/
abbrev Assignment := List (String × Level)

/-- An exclusion rule as declared in `exclude_combinations`: a mapping from
factors (identified by their unique names) to the banned level subsets. -/
abbrev ExclusionRule := List (String × List Level)

/-- Section-3 matching semantics: a candidate configuration matches a rule if,
for every factor named in the rule, the configuration's chosen level for that
factor lies in the rule's listed levels for that factor. -/
def matchesRule (rule : ExclusionRule) (a : Assignment) : Bool :=
  rule.all fun fl =>
    match a.lookup fl.1 with
    | some v => fl.2.contains v
    | none => false

/-- Modelled from the spec: step 1 of `RunTableGenerator.generate` (the
generator lives in framework code not under `src/`): the full Cartesian
product of all factors' levels, in factor-declaration order. -/
def cartesianProduct : List FactorModel → List Assignment
  | [] => [[]]
  | f :: fs =>
    f.levels.flatMap fun v => (cartesianProduct fs).map fun a => (f.name, v) :: a

/-- 64-bit linear congruential step used by the modelled deterministic
shuffle (stands in for the framework's seeded pseudo-random generator). -/
def lcgStep (s : Nat) : Nat :=
  (6364136223846793005 * s + 1442695040888963407) % (2 ^ 64)

/-- Fuelled Fisher-Yates style selection: at each step remove the element at
the pseudo-random index and emit it.  With fuel `l.length` this permutes `l`;
with fuel `k ≤ l.length` its first `k` emitted elements are a `k`-sample. -/
def shuffleGo {α : Type} : Nat → Nat → List α → List α
  | _, 0, l => l
  | _, _ + 1, [] => []
  | s, fuel + 1, x :: xs =>
    let i := s % (x :: xs).length
    (x :: xs).getD i x :: shuffleGo (lcgStep s) fuel ((x :: xs).eraseIdx i)

/-- Modelled from the spec: the deterministic seeded permutation used when
`shuffle` is requested ("a randomized permutation of the replicated list
using a deterministic seed"). -/
def seededShuffle {α : Type} (seed : Nat) (l : List α) : List α :=
  shuffleGo seed l.length l

/-- Modelled from the spec: steps 1-3 of `RunTableGenerator.generate` in
deterministic Cartesian/replication order: Cartesian product, pure filter by
the exclusion rules, then replication with repetition indices from 0. -/
def replicatedTable (factors : List FactorModel) (rules : List ExclusionRule)
    (repetitions : Nat) : List (Assignment × Nat) :=
  let survivors :=
    (cartesianProduct factors).filter fun a => !(rules.any fun r => matchesRule r a)
  survivors.flatMap fun a => (List.range repetitions).map fun i => (a, i)

/-- Modelled from the spec: `RunTableGenerator.generate` (framework code not
under `src/`): Cartesian product, exclusion filter, replication, and the
optional seeded shuffle. -/
def generateRunTable (factors : List FactorModel) (rules : List ExclusionRule)
    (repetitions : Nat) (shuffle : Bool) (seed : Nat) : List (Assignment × Nat) :=
  if shuffle then seededShuffle seed (replicatedTable factors rules repetitions)
  else replicatedTable factors rules repetitions

/-! ### The run table declared in `RunnerConfig_EnergiBridge.py` -/

/-- The five factors of `create_run_table_model` in
`RunnerConfig_EnergiBridge.py` (lines 58-62). -/
def ebFactors : List FactorModel :=
  [⟨"ocr_library", [.s "paddle", .s "tesseract"]⟩,
   ⟨"document_type", [.s "Old_books_2noise", .s "Old_books_Arabic",
      .s "Old_books_No_noise", .s "Book", .s "Newspaper", .s "notes", .s "slides"]⟩,
   ⟨"dataset", [.s "Noisy_Dataset", .s "Omni_Dataset"]⟩,
   ⟨"sample_size", [.i 1, .i 20]⟩,
   ⟨"language", [.s "eng", .s "ara"]⟩]

/-- The four `exclude_combinations` rules of `RunnerConfig_EnergiBridge.py`
(lines 65-70). -/
def ebExcludeCombinations : List ExclusionRule :=
  [[("document_type", [.s "Old_books_2noise", .s "Old_books_Arabic", .s "Old_books_No_noise"]),
    ("dataset", [.s "Omni_Dataset"])],
   [("document_type", [.s "Book", .s "Newspaper", .s "notes", .s "slides"]),
    ("dataset", [.s "Noisy_Dataset"])],
   [("document_type", [.s "Old_books_No_noise", .s "Old_books_2noise", .s "Book",
      .s "Newspaper", .s "notes", .s "slides"]),
    ("language", [.s "ara"])],
   [("document_type", [.s "Old_books_Arabic"]), ("language", [.s "eng"])]]

/-- The Cartesian candidates of the EnergiBridge design. -/
def ebCartesian : List Assignment := cartesianProduct ebFactors

/-- A candidate matches at least one declared EnergiBridge exclusion rule. -/
def ebMatchesAny (a : Assignment) : Bool :=
  ebExcludeCombinations.any fun r => matchesRule r a

/-- The surviving assignments of the EnergiBridge design. -/
def ebSurvivors : List Assignment := ebCartesian.filter fun a => !(ebMatchesAny a)

/-- The EnergiBridge run table: `repetitions=30`, `shuffle=True`; the config
passes no seed, so the seed is left as a parameter. -/
def ebRunTable (seed : Nat) : List (Assignment × Nat) :=
  generateRunTable ebFactors ebExcludeCombinations 30 true seed

/-! ### The run table declared in `RunnerConfig_PowerJoular.py` -/

/-- The five factors of `create_run_table_model` in
`RunnerConfig_PowerJoular.py` (lines 61-65); `sample_size` has four levels. -/
def pjFactors : List FactorModel :=
  [⟨"ocr_library", [.s "paddle", .s "tesseract"]⟩,
   ⟨"document_type", [.s "Old_books_2noise", .s "Old_books_Arabic",
      .s "Old_books_No_noise", .s "Book", .s "Newspaper", .s "notes", .s "slides"]⟩,
   ⟨"dataset", [.s "Noisy_Dataset", .s "Omni_Dataset"]⟩,
   ⟨"sample_size", [.i 1, .i 5, .i 10, .i 20]⟩,
   ⟨"language", [.s "eng", .s "ara"]⟩]

/-- The four `exclude_combinations` rules of `RunnerConfig_PowerJoular.py`
(lines 69-74). -/
def pjExcludeCombinations : List ExclusionRule :=
  [[("document_type", [.s "Old_books_2noise", .s "Old_books_Arabic", .s "Old_books_No_noise"]),
    ("dataset", [.s "Omni_Dataset"])],
   [("document_type", [.s "Book", .s "Newspaper", .s "notes", .s "slides"]),
    ("dataset", [.s "Noisy_Dataset"])],
   [("document_type", [.s "Old_books_2noise", .s "Old_books_No_noise", .s "Book",
      .s "Newspaper", .s "notes", .s "slides"]),
    ("language", [.s "ara"])],
   [("document_type", [.s "Old_books_Arabic"]), ("language", [.s "eng"])]]

/-- The PowerJoular run table: `repetitions=10`, `shuffle=True`, no seed. -/
def pjRunTable (seed : Nat) : List (Assignment × Nat) :=
  generateRunTable pjFactors pjExcludeCombinations 10 true seed

/-! ### Generic lemmas about the modelled shuffle -/

theorem shuffleGo_length {α : Type} (s fuel : Nat) (l : List α) :
    (shuffleGo s fuel l).length = l.length := by
  induction fuel generalizing s l with
  | zero => rfl
  | succ n ih =>
    cases l with
    | nil => rfl
    | cons x xs =>
      have hi : s % (x :: xs).length < (x :: xs).length :=
        Nat.mod_lt _ (by simp)
      simp only [shuffleGo, List.length_cons, ih, List.length_eraseIdx]
      simp only [List.length_cons] at hi
      rw [if_pos hi]
      omega

theorem shuffleGo_mem {α : Type} {s fuel : Nat} {l : List α} {a : α}
    (h : a ∈ shuffleGo s fuel l) : a ∈ l := by
  induction fuel generalizing s l with
  | zero => exact h
  | succ n ih =>
    cases l with
    | nil => simp only [shuffleGo] at h; exact absurd h (List.not_mem_nil a)
    | cons x xs =>
      simp only [shuffleGo, List.mem_cons] at h
      have hi : s % (x :: xs).length < (x :: xs).length :=
        Nat.mod_lt _ (by simp)
      rcases h with h | h
      · subst h
        rw [List.getD_eq_getElem (x :: xs) x hi]
        exact List.getElem_mem hi
      · exact List.eraseIdx_subset _ _ (ih h)

theorem seededShuffle_length {α : Type} (seed : Nat) (l : List α) :
    (seededShuffle seed l).length = l.length :=
  shuffleGo_length seed l.length l

theorem seededShuffle_mem {α : Type} {seed : Nat} {l : List α} {a : α}
    (h : a ∈ seededShuffle seed l) : a ∈ l :=
  shuffleGo_mem h

/-! ### C1 - C3: run-table generation claims -/

set_option maxRecDepth 10000 in
/-- C1: for the EnergiBridge run table model (2*7*2*2*2 = 112 Cartesian
combinations, the 4 declared exclusion rules, repetitions = 30), the count of
distinct surviving assignments equals |Cartesian product| minus |excluded|
(= 112 - 84 = 28), and the generated table length equals 28 * 30 = 840
for every seed. -/
theorem ebRunTable_counts (seed : Nat) :
    ebCartesian.length = 112 ∧
    (ebCartesian.filter ebMatchesAny).length = 84 ∧
    ebSurvivors.length = ebCartesian.length - (ebCartesian.filter ebMatchesAny).length ∧
    ebSurvivors.length = 28 ∧
    ebSurvivors.Nodup ∧
    (ebRunTable seed).length = 28 * 30 := by
  refine ⟨by decide, by decide, by decide, by decide, by decide, ?_⟩
  have h : (replicatedTable ebFactors ebExcludeCombinations 30).length = 840 := by decide
  simp only [ebRunTable, generateRunTable, if_true, seededShuffle_length]
  exact h

/-- C2: every run configuration in a generated run table satisfies none of
the declared exclusion rules: whenever a run is a member of the table
produced by `generateRunTable` and a rule is one of the declared rules, the
rule does not match the run's assignment. -/
theorem generateRunTable_excludes (factors : List FactorModel)
    (rules : List ExclusionRule) (repetitions : Nat) (shuffle : Bool) (seed : Nat)
    (run : Assignment × Nat) (rule : ExclusionRule)
    (hrun : run ∈ generateRunTable factors rules repetitions shuffle seed)
    (hrule : rule ∈ rules) :
    matchesRule rule run.1 = false := by
  have hrep : run ∈ replicatedTable factors rules repetitions := by
    unfold generateRunTable at hrun
    cases shuffle with
    | false => simpa using hrun
    | true => exact seededShuffle_mem (by simpa using hrun)
  simp only [replicatedTable, List.mem_flatMap, List.mem_map] at hrep
  obtain ⟨a, ha, i, _, hi⟩ := hrep
  obtain ⟨-, hfilt⟩ := List.mem_filter.mp ha
  have hany : (rules.any fun r => matchesRule r a) = false := by
    simpa using hfilt
  have hrule2 : matchesRule rule a = false := by
    by_contra hcon
    rw [Bool.not_eq_false] at hcon
    have : (rules.any fun r => matchesRule r a) = true :=
      List.any_eq_true.mpr ⟨rule, hrule, hcon⟩
    rw [hany] at this
    exact Bool.false_ne_true this
  rw [← hi]
  exact hrule2

/-- A one-factor design used to instantiate the generation theorems. -/
def smallFactors : List FactorModel := [⟨"f", [.s "a", .s "b"]⟩]

/-- A one-rule exclusion set banning level `"b"` of factor `"f"`. -/
def smallRules : List ExclusionRule := [[("f", [.s "b"])]]

/-- C2 witness: the surviving run of the small design is not matched by the
declared rule. -/
theorem generateRunTable_excludes_witness :
    matchesRule [("f", [Level.s "b"])] ([("f", Level.s "a")] : Assignment) = false :=
  generateRunTable_excludes smallFactors smallRules 1 false 0
    ([("f", Level.s "a")], 0) [("f", [Level.s "b"])] (by decide) (by decide)

/-- C3: run-order generation is deterministic: with `shuffle = true` the same
seed always yields the same order (the generator is a pure function of its
seed), and with `shuffle = false` the output is the Cartesian/replication
order regardless of the seed. -/
theorem generateRunTable_deterministic (factors : List FactorModel)
    (rules : List ExclusionRule) (repetitions : Nat) (seed seed2 : Nat) :
    generateRunTable factors rules repetitions true seed
      = generateRunTable factors rules repetitions true seed ∧
    generateRunTable factors rules repetitions false seed
      = generateRunTable factors rules repetitions false seed2 ∧
    generateRunTable factors rules repetitions false seed
      = replicatedTable factors rules repetitions := by
  refine ⟨rfl, ?_, ?_⟩ <;> simp [generateRunTable]

/-! ### C4: PowerJoular run lifecycle -/

/-- Observable lifecycle events of one run of the attaching (PowerJoular)
configuration. -/
inductive LifecycleEvent where
  | targetSpawn (pid : Nat)
  | profilerStart (pid : Nat)
  | targetWait (pid : Nat)
  | profilerStop
  | targetKill (pid : Nat)
deriving DecidableEq

/-- Mutable controller state of `RunnerConfig` in
`RunnerConfig_PowerJoular.py`: the spawned target (`self.target`, by pid),
the profiler's bound target (`self.meter`, by pid), and the emitted event
trace. -/
structure PJState where
  target : Option Nat
  meterTarget : Option Nat
  trace : List LifecycleEvent
deriving DecidableEq

/-- `start_run` (lines 91-113): spawns the target process via
`subprocess.Popen` and stores it in `self.target`. -/
def pjStartRun (pid : Nat) (st : PJState) : PJState :=
  { st with target := some pid, trace := st.trace ++ [.targetSpawn pid] }

/-- `start_measurement` (lines 115-123): constructs the PowerJoular meter
bound to `self.target.pid` and starts it; fails if no target was spawned. -/
def pjStartMeasurement (st : PJState) : Option PJState :=
  st.target.map fun p =>
    { st with meterTarget := some p, trace := st.trace ++ [.profilerStart p] }

/-- `interact` (lines 125-130): blocks on `self.target.wait()` until the
target terminates. -/
def pjInteract (st : PJState) : Option PJState :=
  st.target.map fun p => { st with trace := st.trace ++ [.targetWait p] }

/-- `stop_measurement` (lines 132-136): stops the meter
(`self.meter.stop()`). -/
def pjStopMeasurement (st : PJState) : PJState :=
  { st with trace := st.trace ++ [.profilerStop] }

/-- `stop_run` (lines 138-143): `self.target.kill()` then
`self.target.wait()`. -/
def pjStopRun (st : PJState) : Option PJState :=
  st.target.map fun p =>
    { st with trace := st.trace ++ [.targetKill p, .targetWait p] }

/-- Modelled from the spec: the external scheduler (experiment-level event
wiring, not under `src/`) calls the lifecycle hooks of one run in the fixed
order START_RUN, START_MEASUREMENT, INTERACT, STOP_MEASUREMENT, STOP_RUN,
exactly as subscribed in `__init__`. -/
def pjRunLifecycle (pid : Nat) : Option PJState :=
  (pjStartMeasurement (pjStartRun pid ⟨none, none, []⟩)).bind fun st1 =>
    (pjInteract st1).bind fun st2 =>
      pjStopRun (pjStopMeasurement st2)

/-- C4: in every run of the attaching (PowerJoular) configuration the
lifecycle succeeds and its event order is: the target is spawned first, the
profiler is started only after the target exists and is bound to the
already-spawned target's pid, the controller then blocks until the target
terminates, and only after termination is the profiler stopped. -/
theorem pjRunLifecycle_event_order (pid : Nat) :
    pjRunLifecycle pid
      = some ⟨some pid, some pid,
          [.targetSpawn pid, .profilerStart pid, .targetWait pid,
           .profilerStop, .targetKill pid, .targetWait pid]⟩ ∧
    ((pjRunLifecycle pid).map fun st => st.trace.take 4)
      = some [.targetSpawn pid, .profilerStart pid, .targetWait pid, .profilerStop] ∧
    ((pjRunLifecycle pid).map fun st => st.meterTarget)
      = some (some pid) := by
  refine ⟨rfl, ?_, ?_⟩ <;> rfl

/-! ### Metric extraction (`populate_run_data` of both configs) -/

/-- A parsed per-metric time series: (timestamp, value) pairs, as returned by
`parse_log` (a Python dict `timestamp -> value`). -/
abbrev Series := List (ℚ × ℚ)

/-- A parsed profiler log: metric column name mapped to its series. -/
abbrev ParsedLog := List (String × Series)

/-- The `.values()` view of a series dict. -/
def seriesValues (s : Series) : List ℚ := s.map (·.2)

/-- Errors of metric extraction: a Python `KeyError` on a missing dict key
(the spec's MissingMetric), or `ValueError` from `max` on an empty series. -/
inductive MetricError where
  | keyError (key : String)
  | emptySeries (key : String)
deriving DecidableEq

/-- The EnergiBridge result record: `{"energy": .., "runtime": .., "memory": ..}`. -/
structure EBResult where
  energy : ℚ
  runtime : ℚ
  memory : ℚ
deriving DecidableEq

/-- Python `max` over a collection: fails on the empty one. -/
def listMax : List ℚ → Option ℚ
  | [] => none
  | x :: xs => some (xs.foldl max x)

/-- `populate_run_data` of `RunnerConfig_EnergiBridge.py` (lines 150-160):
energy is the summary's `total_joules`, runtime the summary's
`runtime_seconds`, memory the max of the log's `USED_MEMORY` series; dict
lookups are evaluated in that order and raise `KeyError` on a missing key. -/
def populateRunDataEB (log : ParsedLog) (summary : List (String × ℚ)) :
    Except MetricError EBResult :=
  match summary.lookup "total_joules" with
  | none => .error (.keyError "total_joules")
  | some e =>
    match summary.lookup "runtime_seconds" with
    | none => .error (.keyError "runtime_seconds")
    | some r =>
      match log.lookup "USED_MEMORY" with
      | none => .error (.keyError "USED_MEMORY")
      | some mem =>
        match listMax (seriesValues mem) with
        | none => .error (.emptySeries "USED_MEMORY")
        | some m => .ok ⟨e, r, m⟩

/-- Python's `round(x, 3)` on the extracted values, idealized over ℚ:
round to the nearest multiple of 1/1000. -/
def round3 (q : ℚ) : ℚ := (round (q * 1000) : ℤ) / 1000

/-- The PowerJoular result record: `{'avg_cpu': .., 'total_energy': ..}`. -/
structure PJResult where
  avgCpu : ℚ
  totalEnergy : ℚ
deriving DecidableEq

/-- `populate_run_data` of `RunnerConfig_PowerJoular.py` (lines 145-159):
`avg_cpu` is `round(np.mean(CPU Utilization values), 3)` and `total_energy`
is `round(sum(CPU Power values), 3)`, both from the global log; missing
columns raise `KeyError`. -/
def populateRunDataPJ (log : ParsedLog) : Except MetricError PJResult :=
  match log.lookup "CPU Utilization" with
  | none => .error (.keyError "CPU Utilization")
  | some util =>
    match log.lookup "CPU Power" with
    | none => .error (.keyError "CPU Power")
    | some pw =>
      .ok ⟨round3 ((seriesValues util).sum / (seriesValues util).length),
           round3 (seriesValues pw).sum⟩

/-! ### Helper lemmas about `listMax` -/

theorem foldl_max_mem (xs : List ℚ) (x : ℚ) :
    xs.foldl max x = x ∨ xs.foldl max x ∈ xs := by
  induction xs generalizing x with
  | nil => exact Or.inl rfl
  | cons y ys ih =>
    simp only [List.foldl_cons]
    rcases ih (max x y) with h | h
    · rcases max_choice x y with h2 | h2
      · exact Or.inl (h.trans h2)
      · exact Or.inr (List.mem_cons.mpr (Or.inl (h.trans h2)))
    · exact Or.inr (List.mem_cons_of_mem _ h)

theorem le_foldl_max (xs : List ℚ) (x : ℚ) : x ≤ xs.foldl max x := by
  induction xs generalizing x with
  | nil => exact le_refl x
  | cons y ys ih => exact le_trans (le_max_left x y) (ih (max x y))

theorem foldl_max_le_of_mem {xs : List ℚ} {v : ℚ} (x : ℚ) (h : v ∈ xs) :
    v ≤ xs.foldl max x := by
  induction xs generalizing x with
  | nil => exact absurd h (List.not_mem_nil v)
  | cons y ys ih =>
    rcases List.mem_cons.mp h with h2 | h2
    · subst h2
      exact le_trans (le_max_right x v) (le_foldl_max ys (max x v))
    · exact ih (max x y) h2

theorem listMax_spec {l : List ℚ} {m : ℚ} (h : listMax l = some m) :
    m ∈ l ∧ ∀ v ∈ l, v ≤ m := by
  cases l with
  | nil => exact absurd h (by simp [listMax])
  | cons x xs =>
    simp only [listMax, Option.some.injEq] at h
    subst h
    constructor
    · rcases foldl_max_mem xs x with h | h
      · rw [h]
        exact List.mem_cons_self x xs
      · exact List.mem_cons_of_mem _ h
    · intro v hv
      rcases List.mem_cons.mp hv with h2 | h2
      · rw [h2]
        exact le_foldl_max xs x
      · exact foldl_max_le_of_mem x h2

/-! ### Rounding helper lemmas -/

theorem round3_mul_1000 (q : ℚ) : round3 q * 1000 = round (q * 1000) := by
  rw [round3, div_mul_cancel₀]
  norm_num

theorem abs_round3_sub (q : ℚ) : |round3 q - q| ≤ 1 / 2000 := by
  have h := abs_sub_round (q * 1000)
  rw [abs_sub_comm] at h
  rw [round3]
  have h2 : (round (q * 1000) : ℚ) / 1000 - q
      = ((round (q * 1000) : ℚ) - q * 1000) / 1000 := by
    ring
  rw [h2, abs_div, abs_of_pos (by norm_num : (0:ℚ) < 1000)]
  calc |(round (q * 1000) : ℚ) - q * 1000| / 1000
      ≤ (1 / 2) / 1000 := (div_le_div_iff_of_pos_right (by norm_num : (0:ℚ) < 1000)).mpr h
    _ = 1 / 2000 := by norm_num

/-! ### C5: energy extraction -/

/-- A PowerJoular log whose two samples are 1 second apart (CPU Power 5 W at
t = 0 and t = 1). -/
def pjLogSecondApart : ParsedLog :=
  [("CPU Utilization", [(0, 50), (1, 50)]), ("CPU Power", [(0, 5), (1, 5)])]

/-- The same sample values 2 seconds apart: under the power-reading
interpretation this window holds twice the energy of `pjLogSecondApart`. -/
def pjLogTwoSecondsApart : ParsedLog :=
  [("CPU Utilization", [(0, 50), (2, 50)]), ("CPU Power", [(0, 5), (2, 5)])]

/-- C5 counterexample: the claim says the caller asserts, rather than
assumes, whether samples are power (requiring integration over the sampling
interval) or directly summable energy-per-sample.  The PowerJoular
extraction performs no such assertion or integration: two logs with the same
CPU Power sample values but different timestamp spacing produce the identical
reported total (10), although under the power interpretation the 2-second
spacing implies 20 joules; the sampling interval is silently assumed. -/
theorem pjEnergy_ignores_sampling_interval :
    populateRunDataPJ pjLogSecondApart = .ok ⟨50, 10⟩ ∧
    populateRunDataPJ pjLogTwoSecondsApart = .ok ⟨50, 10⟩ ∧
    populateRunDataPJ pjLogSecondApart = populateRunDataPJ pjLogTwoSecondsApart ∧
    (10 : ℚ) ≠ 2 * 5 + 2 * 5 := by
  have hb : ("CPU Power" == "CPU Utilization") = false := by decide
  have hb2 : ("CPU Power" == "CPU Power") = true := by decide
  refine ⟨?_, ?_, ?_, by norm_num⟩ <;>
    norm_num [populateRunDataPJ, pjLogSecondApart, pjLogTwoSecondsApart,
      seriesValues, round3, List.lookup, hb, hb2]

/-- C5 amended: energy extraction prefers a profiler-reported cumulative
total when one is present (the EnergiBridge config reports the summary's
`total_joules`, whatever the log's series contain), and otherwise sums
per-sample power readings (the PowerJoular config reports the rounded sum of
the per-sample CPU Power series); no assertion about power-versus-energy
units is made — the PowerJoular sum is taken directly, independent of the
sampling interval. -/
theorem energy_extraction_sources (log log2 : ParsedLog)
    (summary : List (String × ℚ)) (e r : ℚ) (mem util pw : Series)
    (he : summary.lookup "total_joules" = some e)
    (hr : summary.lookup "runtime_seconds" = some r)
    (hm : log.lookup "USED_MEMORY" = some mem)
    (hne : mem ≠ [])
    (hu : log2.lookup "CPU Utilization" = some util)
    (hp : log2.lookup "CPU Power" = some pw) :
    (∃ m, populateRunDataEB log summary = .ok ⟨e, r, m⟩) ∧
    populateRunDataPJ log2
      = .ok ⟨round3 ((seriesValues util).sum / (seriesValues util).length),
             round3 (seriesValues pw).sum⟩ := by
  constructor
  · have hmax : ∃ m, listMax (seriesValues mem) = some m := by
      cases mem with
      | nil => exact absurd rfl hne
      | cons x xs => exact ⟨_, rfl⟩
    obtain ⟨m, hmax⟩ := hmax
    exact ⟨m, by simp [populateRunDataEB, he, hr, hm, hmax]⟩
  · simp [populateRunDataPJ, hu, hp]

/-- C5 witness: the amended claim instantiated on the concrete summary
`{total_joules: 7, runtime_seconds: 3}` with the 1-second-spacing log. -/
theorem energy_extraction_sources_witness :
    (∃ m, populateRunDataEB [("USED_MEMORY", [(0, 100)])]
        [("total_joules", 7), ("runtime_seconds", 3)] = .ok ⟨7, 3, m⟩) ∧
    populateRunDataPJ pjLogSecondApart
      = .ok ⟨round3 ((seriesValues [(0, 50), (1, 50)]).sum
               / (seriesValues [(0, 50), (1, 50)]).length),
             round3 (seriesValues [(0, 5), (1, 5)]).sum⟩ :=
  energy_extraction_sources [("USED_MEMORY", [(0, 100)])] pjLogSecondApart
    [("total_joules", 7), ("runtime_seconds", 3)] 7 3
    [(0, 100)] [(0, 50), (1, 50)] [(0, 5), (1, 5)]
    (by decide) (by decide) (by decide) (by decide) (by decide) (by decide)

/-! ### C6: peak memory -/

/-- The example memory log of scenario 3: series [100, 250, 180]. -/
def memLog : ParsedLog := [("USED_MEMORY", [(0, 100), (1, 250), (2, 180)])]

/-- A summary with `total_joules` 7 and `runtime_seconds` 3 accompanying
`memLog`. -/
def memSummary : List (String × ℚ) := [("total_joules", 7), ("runtime_seconds", 3)]

/-- C6: peak resource extraction uses the maximum, not the mean: for every
parsed memory series, the extracted memory value is a member of the series
that bounds every member from above (its maximum); in particular on the
series [100, 250, 180] the reported peak memory is 250, which differs from
the mean 530/3. -/
theorem ebMemory_is_series_max :
    (∀ (log : ParsedLog) (summary : List (String × ℚ)) (e r : ℚ) (mem : Series),
      summary.lookup "total_joules" = some e →
      summary.lookup "runtime_seconds" = some r →
      log.lookup "USED_MEMORY" = some mem →
      mem ≠ [] →
      ∃ m, populateRunDataEB log summary = .ok ⟨e, r, m⟩ ∧
        m ∈ seriesValues mem ∧ ∀ v ∈ seriesValues mem, v ≤ m) ∧
    populateRunDataEB memLog memSummary = .ok ⟨7, 3, 250⟩ ∧
    (250 : ℚ) ≠ (100 + 250 + 180) / 3 := by
  refine ⟨?_, ?_, by norm_num⟩
  · intro log summary e r mem he hr hm hne
    have hmax : ∃ m, listMax (seriesValues mem) = some m := by
      cases mem with
      | nil => exact absurd rfl hne
      | cons x xs => exact ⟨_, rfl⟩
    obtain ⟨m, hmax⟩ := hmax
    obtain ⟨hmem, hle⟩ := listMax_spec hmax
    exact ⟨m, by simp [populateRunDataEB, he, hr, hm, hmax], hmem, hle⟩
  · have h1 : ("runtime_seconds" == "total_joules") = false := by decide
    have h2 : ("runtime_seconds" == "runtime_seconds") = true := by decide
    have h3 : ("total_joules" == "total_joules") = true := by decide
    norm_num [populateRunDataEB, memLog, memSummary, seriesValues, listMax,
      List.lookup, h1, h2, h3, max_def]

/-- C6 witness: the general part instantiated on `memLog`/`memSummary`. -/
theorem ebMemory_is_series_max_witness :
    ∃ m, populateRunDataEB memLog memSummary = .ok ⟨7, 3, m⟩ ∧
      m ∈ seriesValues [(0, 100), (1, 250), (2, 180)] ∧
      ∀ v ∈ seriesValues [(0, 100), (1, 250), (2, 180)], v ≤ m :=
  ebMemory_is_series_max.1 memLog memSummary 7 3 [(0, 100), (1, 250), (2, 180)]
    (by decide) (by decide) (by decide) (by decide)

/-! ### C7: average CPU utilization -/

/-- C7: utilization extraction uses the arithmetic mean: the extracted
`avg_cpu` equals the arithmetic mean (sum divided by length) of the parsed
CPU Utilization series, rounded to 3 decimal places: scaled by 1000 it is
the integer nearest the scaled mean, and it differs from the exact mean by
at most 1/2000. -/
theorem pjAvgCpu_is_mean (log : ParsedLog) (util pw : Series)
    (hu : log.lookup "CPU Utilization" = some util)
    (hp : log.lookup "CPU Power" = some pw) :
    ∃ res, populateRunDataPJ log = .ok res ∧
      res.avgCpu = round3 ((seriesValues util).sum / (seriesValues util).length) ∧
      res.avgCpu * 1000
        = round ((seriesValues util).sum / (seriesValues util).length * 1000) ∧
      |res.avgCpu - (seriesValues util).sum / (seriesValues util).length| ≤ 1 / 2000 := by
  refine ⟨⟨round3 ((seriesValues util).sum / (seriesValues util).length),
      round3 (seriesValues pw).sum⟩,
    by simp [populateRunDataPJ, hu, hp], rfl, ?_, ?_⟩
  · exact round3_mul_1000 _
  · exact abs_round3_sub _

/-- C7 witness: on the series [10, 20, 30] the extracted average is the
rounded mean 20. -/
theorem pjAvgCpu_is_mean_witness :
    ∃ res, populateRunDataPJ
        [("CPU Utilization", [(0, 10), (1, 20), (2, 30)]), ("CPU Power", [(0, 5)])]
        = .ok res ∧
      res.avgCpu = round3 ((seriesValues [(0, 10), (1, 20), (2, 30)]).sum
        / (seriesValues [(0, 10), (1, 20), (2, 30)]).length) ∧
      res.avgCpu * 1000
        = round ((seriesValues [(0, 10), (1, 20), (2, 30)]).sum
            / (seriesValues [(0, 10), (1, 20), (2, 30)]).length * 1000) ∧
      |res.avgCpu - (seriesValues [(0, 10), (1, 20), (2, 30)]).sum
          / (seriesValues [(0, 10), (1, 20), (2, 30)]).length| ≤ 1 / 2000 :=
  pjAvgCpu_is_mean
    [("CPU Utilization", [(0, 10), (1, 20), (2, 30)]), ("CPU Power", [(0, 5)])]
    [(0, 10), (1, 20), (2, 30)] [(0, 5)] (by decide) (by decide)

/-! ### C8: missing metric errors -/

/-- C8: if a declared data column has no reduction source in the parsed
profiler output, metric extraction fails with an error naming the absent
source column (the Python `KeyError` on the missing dict key) rather than
substituting a default value: a summary lacking `total_joules`, a log
lacking `USED_MEMORY`, and a log lacking `CPU Utilization` or `CPU Power`
each yield the corresponding error. -/
theorem populate_missing_metric (log log2 : ParsedLog)
    (summary : List (String × ℚ)) (e r : ℚ) (util : Series) :
    (summary.lookup "total_joules" = none →
      populateRunDataEB log summary = .error (.keyError "total_joules")) ∧
    (summary.lookup "total_joules" = some e →
      summary.lookup "runtime_seconds" = some r →
      log.lookup "USED_MEMORY" = none →
      populateRunDataEB log summary = .error (.keyError "USED_MEMORY")) ∧
    (log2.lookup "CPU Utilization" = none →
      populateRunDataPJ log2 = .error (.keyError "CPU Utilization")) ∧
    (log2.lookup "CPU Utilization" = some util →
      log2.lookup "CPU Power" = none →
      populateRunDataPJ log2 = .error (.keyError "CPU Power")) := by
  refine ⟨?_, ?_, ?_, ?_⟩
  · intro h1
    simp [populateRunDataEB, h1]
  · intro h1 h2 h3
    simp [populateRunDataEB, h1, h2, h3]
  · intro h1
    simp [populateRunDataPJ, h1]
  · intro h1 h2
    simp [populateRunDataPJ, h1, h2]

/-- C8 witness: on empty parsed outputs the first missing key is reported. -/
theorem populate_missing_metric_witness :
    populateRunDataEB [] [] = .error (.keyError "total_joules") ∧
    populateRunDataPJ [] = .error (.keyError "CPU Utilization") :=
  ⟨(populate_missing_metric [] [] [] 0 0 []).1 rfl,
   (populate_missing_metric [] [] [] 0 0 []).2.2.1 rfl⟩

/-! ### C9: workload sample selection (`run_paddle.py` / `run_tesseract.py`) -/

/-- A file name, as a list of characters. -/
abbrev FileName := List Char

/-- The image extensions accepted by both workload scripts:
`name.endswith(('.png', '.jpg', '.jpeg', '.tiff'))`. -/
def imageSuffixes : List FileName :=
  [".png".data, ".jpg".data, ".jpeg".data, ".tiff".data]

/-- The `all_images` filter predicate of both scripts: the (case-sensitive)
tuple `endswith` test on a directory entry. -/
def isImageName (f : FileName) : Bool :=
  imageSuffixes.any fun suf => suf.isSuffixOf f

/-- `all_images`: the directory entries ending in an image extension. -/
def listImages (entries : List FileName) : List FileName :=
  entries.filter isImageName

/-- Deterministic stand-in for Python's `random.Random(seed).sample(l, k)`
(the sampler is library code external to the repository): the first `k`
elements picked by the seeded selection-without-replacement walk. -/
def randomSample {α : Type} (seed k : Nat) (l : List α) : List α :=
  (shuffleGo seed k l).take k

/-- The sample-selection block of `run_paddle.py` (lines 33-38) and
`run_tesseract.py` (lines 32-37): `--sample-size` 0 keeps the full image
list; n > 0 takes a seeded sample of `min(n, len(all_images))` images. -/
def selectImages (sampleSize seed : Nat) (allImages : List FileName) :
    List FileName :=
  if 0 < sampleSize then
    randomSample seed (min sampleSize allImages.length) allImages
  else allImages

/-- C9: with `--sample-size` 0 the workload processes the full image list
with no subsampling; with n > 0 it processes `min(n, available)` images
drawn from the available images by the seeded sampler; selection is a pure
function of (sample size, seed, directory listing), so the subset is
identical across invocations with the same arguments and contents. -/
theorem selectImages_spec (sampleSize seed : Nat) (allImages : List FileName) :
    (sampleSize = 0 → selectImages sampleSize seed allImages = allImages) ∧
    (0 < sampleSize →
      (selectImages sampleSize seed allImages).length
        = min sampleSize allImages.length) ∧
    (∀ img ∈ selectImages sampleSize seed allImages, img ∈ allImages) ∧
    selectImages sampleSize seed allImages = selectImages sampleSize seed allImages := by
  refine ⟨?_, ?_, ?_, rfl⟩
  · intro h
    simp [selectImages, h]
  · intro h
    simp only [selectImages, if_pos h, randomSample, List.length_take,
      shuffleGo_length]
    omega
  · intro img hmem
    unfold selectImages at hmem
    by_cases h : 0 < sampleSize
    · rw [if_pos h] at hmem
      exact shuffleGo_mem (List.take_subset _ _ hmem)
    · rwa [if_neg h] at hmem

/-- C9 witness: sampling 2 of 3 images yields 2 images; sample size 0 keeps
the full list. -/
theorem selectImages_spec_witness :
    (selectImages 2 7 ["a.png".data, "b.png".data, "c.png".data]).length
      = min 2 (["a.png".data, "b.png".data, "c.png".data] : List FileName).length ∧
    selectImages 0 7 ["a.png".data] = ["a.png".data] :=
  ⟨(selectImages_spec 2 7 ["a.png".data, "b.png".data, "c.png".data]).2.1
      (by decide),
   (selectImages_spec 0 7 ["a.png".data]).1 rfl⟩

/-! ### C10: OCR loop robustness -/

/-- Python `str.lower()` on a file name. -/
def lowerName (f : FileName) : FileName := f.map Char.toLower

/-- The OCR loop of `run_paddle.py` (lines 49-60): for each selected image
run OCR inside `try`; on success append (image, predicted text), on any
exception append (image, "").  `ocr img = none` models OCR of `img`
raising. -/
def ocrLoopPaddle (ocr : FileName → Option String) :
    List FileName → List (FileName × String)
  | [] => []
  | img :: rest =>
    match ocr img with
    | some text => (img, text) :: ocrLoopPaddle ocr rest
    | none => (img, "") :: ocrLoopPaddle ocr rest

/-- The OCR loop of `run_tesseract.py` (lines 106-116): it additionally
skips (`continue`) names whose lowercase form lacks an image extension,
then behaves as the paddle loop. -/
def ocrLoopTesseract (ocr : FileName → Option String) :
    List FileName → List (FileName × String)
  | [] => []
  | img :: rest =>
    if isImageName (lowerName img) then
      match ocr img with
      | some text => (img, text) :: ocrLoopTesseract ocr rest
      | none => (img, "") :: ocrLoopTesseract ocr rest
    else ocrLoopTesseract ocr rest

theorem lowerName_isImageName {f : FileName} (h : isImageName f = true) :
    isImageName (lowerName f) = true := by
  simp only [isImageName, List.any_eq_true] at h ⊢
  obtain ⟨suf, hsuf, hs⟩ := h
  refine ⟨suf, hsuf, ?_⟩
  rw [List.isSuffixOf_iff_suffix] at hs ⊢
  obtain ⟨t, ht⟩ := hs
  have hlow : lowerName suf = suf := by
    simp only [imageSuffixes, List.mem_cons, List.not_mem_nil, or_false] at hsuf
    rcases hsuf with h1 | h1 | h1 | h1 <;> subst h1 <;> decide
  refine ⟨lowerName t, ?_⟩
  rw [← hlow, lowerName, lowerName, lowerName, ← List.map_append, ht]

theorem ocrLoopPaddle_eq (ocr : FileName → Option String)
    (images : List FileName) :
    ocrLoopPaddle ocr images = images.map fun img => (img, (ocr img).getD "") := by
  induction images with
  | nil => rfl
  | cons img rest ih =>
    cases hocr : ocr img <;> simp [ocrLoopPaddle, hocr, ih]

theorem ocrLoopTesseract_eq (ocr : FileName → Option String)
    (images : List FileName) (h : ∀ img ∈ images, isImageName img = true) :
    ocrLoopTesseract ocr images
      = images.map fun img => (img, (ocr img).getD "") := by
  induction images with
  | nil => rfl
  | cons img rest ih =>
    have himg := lowerName_isImageName (h img (List.mem_cons_self img rest))
    have hrest := ih fun i hi => h i (List.mem_cons_of_mem _ hi)
    cases hocr : ocr img <;> simp [ocrLoopTesseract, himg, hocr, hrest]

/-- C10: for every selected image, a failed OCR (`ocr img = none`) yields a
record with an empty prediction string instead of aborting the loop, so both
scripts' results arrays contain exactly one record per selected image, in
selection order, regardless of per-image failures; for the tesseract loop
this needs every selected name to carry an image extension, which the
`all_images` filter guarantees. -/
theorem ocrLoop_one_record_per_image (ocr : FileName → Option String)
    (images : List FileName)
    (h : ∀ img ∈ images, isImageName img = true) :
    ocrLoopPaddle ocr images = (images.map fun img => (img, (ocr img).getD "")) ∧
    ocrLoopTesseract ocr images = (images.map fun img => (img, (ocr img).getD "")) ∧
    (ocrLoopTesseract ocr images).length = images.length ∧
    (ocrLoopPaddle ocr images).map Prod.fst = images ∧
    ∀ img ∈ images, ocr img = none → (img, "") ∈ ocrLoopPaddle ocr images := by
  have hp := ocrLoopPaddle_eq ocr images
  have ht := ocrLoopTesseract_eq ocr images h
  have hfst : (ocrLoopPaddle ocr images).map Prod.fst = images := by
    rw [hp, List.map_map]
    have : (Prod.fst ∘ fun img : FileName => (img, (ocr img).getD "")) = id := by
      funext img
      rfl
    rw [this, List.map_id]
  refine ⟨hp, ht, by simp [ht], hfst, ?_⟩
  intro img hmem hocr
  rw [hp]
  exact List.mem_map.mpr ⟨img, hmem, by simp [hocr]⟩

/-- C10 witness: a two-image batch where OCR of the first image raises. -/
theorem ocrLoop_one_record_per_image_witness :
    ocrLoopTesseract (fun f => if f = "a.png".data then none else some "ok")
        ["a.png".data, "b.jpg".data]
      = (["a.png".data, "b.jpg".data].map fun img =>
          (img, ((fun f => if f = "a.png".data then none else some "ok") img).getD "")) ∧
    (ocrLoopPaddle (fun f => if f = "a.png".data then none else some "ok")
        ["a.png".data, "b.jpg".data]).map Prod.fst
      = ["a.png".data, "b.jpg".data] :=
  ⟨(ocrLoop_one_record_per_image
      (fun f => if f = "a.png".data then none else some "ok")
      ["a.png".data, "b.jpg".data] (by decide)).2.1,
   (ocrLoop_one_record_per_image
      (fun f => if f = "a.png".data then none else some "ok")
      ["a.png".data, "b.jpg".data] (by decide)).2.2.2.1⟩
